import Mathlib

/-!
# Verification of the outrider secret-distribution operator

A shallow embedding of the outrider operator (Rust, `src/`): the data model
(`Secret`, `Cluster`), the pure helper functions of `sync/secrets.rs` and
`types/cluster.rs`, the synchronization coordinator of `sync/manager.rs`
(modelled as a trace-producing state machine over an environment holding the
Kubernetes list-API results), the distribution primitive of
`sync/secrets.rs` + `kubernetes/namespaces.rs` (modelled against a
deterministic downstream-cluster store), the CRD availability gate of
`kubernetes/crd.rs`, and the testing-mode URL substitution of
`kubernetes/client.rs`.

Maps model note: Rust `BTreeMap<String, String>` fields (labels, annotations,
data) are embedded as association lists `List (String × String)` with
`List.lookup` as `get`; byte payloads are kept as opaque strings since the
code never inspects them.
-/

namespace Outrider

/-- Kubernetes object metadata, restricted to the fields outrider reads or
writes (`name`, `namespace`, `labels`, `annotations`). All other metadata is
dropped by `..Default::default()` in `create_downstream_secret`. -/
structure ObjectMeta where
  name : Option String
  namespace' : Option String
  labels : Option (List (String × String))
  annotations : Option (List (String × String))
deriving DecidableEq

/-- Rust `k8s_openapi::api::core::v1::Secret`, restricted to the fields the
operator touches. -/
structure Secret where
  metadata : ObjectMeta
  data : Option (List (String × String))
  string_data : Option (List (String × String))
  type' : Option String
  immutable : Option Bool
deriving DecidableEq

/-- Source `types/cluster.rs`: one entry of `status.conditions`. -/
structure Condition where
  condition_type : String
  status : String
  message : Option String
deriving DecidableEq

/-- Source `types/cluster.rs`: `ClusterStatus`. -/
structure ClusterStatus where
  client_secret_name : Option String
  cluster_name : String
  ready : Option Bool
  conditions : Option (List Condition)
deriving DecidableEq

/-- Source `types/cluster.rs`: `ClusterSpec`. -/
structure ClusterSpec where
  kubernetes_version : Option String
  local' : Option Bool
  display_name : Option String
deriving DecidableEq

/-- Source `types/cluster.rs`: the `provisioning.cattle.io/v1` `Cluster` resource. -/
structure Cluster where
  metadata : ObjectMeta
  spec : ClusterSpec
  status : Option ClusterStatus
deriving DecidableEq

/-- Source `config.rs`: operator configuration. -/
structure Config where
  default_target_namespace : String
  testing_mode : Bool
deriving DecidableEq

/-- Source `constants.rs`: `annotations::ENABLED`. -/
def ENABLED_KEY : String := "outrider.geeko.me/enabled"

/-- Source `constants.rs`: `annotations::NAMESPACE`. -/
def NAMESPACE_KEY : String := "outrider.geeko.me/namespace"

/-- Source `constants.rs`: `OPERATOR_NAME`, the server-side-apply field manager. -/
def OPERATOR_NAME : String := "outrider"

/-- Rust `BTreeMap::get` on an optional annotation/label map. -/
def mapGet (m : Option (List (String × String))) (k : String) : Option String :=
  m.bind fun l => l.lookup k

/-- Rust `kube::ResourceExt::name_any` on a secret: `metadata.name` or `""`. -/
def Secret.name_any (s : Secret) : String :=
  s.metadata.name.getD ""

/-- Rust `kube::ResourceExt::name_any` on a cluster. -/
def Cluster.name_any (c : Cluster) : String :=
  c.metadata.name.getD ""

/-- Source `types/cluster.rs` `Cluster::is_ready`: some condition has
type `Ready` and status `True`. -/
def Cluster.is_ready (c : Cluster) : Bool :=
  match c.status with
  | none => false
  | some st =>
    match st.conditions with
    | none => false
    | some conds =>
      conds.any fun cond => cond.condition_type == "Ready" && cond.status == "True"

/-- Source `types/cluster.rs` `Cluster::is_local`: the cluster named `local`. -/
def Cluster.is_local (c : Cluster) : Bool :=
  c.name_any == "local"

/-- Source `types/cluster.rs` `Cluster::internal_name`: `status.clusterName`,
falling back to the object name when status is absent. -/
def Cluster.internal_name (c : Cluster) : String :=
  match c.status with
  | some st => st.cluster_name
  | none => c.name_any

/-- Source `sync/secrets.rs` `is_secret_enabled`: the enabled annotation is present
with value exactly `"true"`. -/
def is_secret_enabled (secret : Secret) : Bool :=
  match mapGet secret.metadata.annotations ENABLED_KEY with
  | some v => v == "true"
  | none => false

/-- Source `sync/secrets.rs` `get_target_namespace`: the namespace-override
annotation if present, else the configured default. -/
def get_target_namespace (secret : Secret) (config : Config) : String :=
  (mapGet secret.metadata.annotations NAMESPACE_KEY).getD config.default_target_namespace

/-- Source `sync/secrets.rs` `create_downstream_secret`: clone the secret into the
target namespace, dropping every annotation whose key starts with
`outrider.geeko.me/`. -/
def create_downstream_secret (secret : Secret) (target_namespace : String) : Secret :=
  let filtered_annotations := secret.metadata.annotations.map fun a =>
    a.filter fun kv => !(kv.1.startsWith "outrider.geeko.me/")
  { metadata :=
      { name := secret.metadata.name
        namespace' := some target_namespace
        labels := secret.metadata.labels
        annotations := filtered_annotations }
    data := secret.data
    string_data := secret.string_data
    type' := secret.type'
    immutable := secret.immutable }

/-! ## The synchronization coordinator (`sync/manager.rs`)

`SyncManager` is embedded as a trace-producing state machine.  Each handler
of `sync/manager.rs` is a function from the coordinator state and an
environment (the results the Kubernetes list API would return during that
handler) to the ordered list of externally visible actions it performs:
distribution attempts (`sync_secret_to_cluster`, which logs and continues on
error, so an attempt is recorded regardless of its outcome), insertions and
removals on `synced_clusters`, and setting `initial_sync_done`.  The state
reached by a handler is the left fold of its trace over the entry state,
mirroring the sequential mutation order of the Rust code. -/

/-- Source `sync/manager.rs` `SyncEvent`. -/
inductive SyncEvent where
  | secretChanged (secret : Secret)
  | clusterBecameReady (cluster : Cluster)
  | clusterBecameNotReady (name : String)
deriving DecidableEq

/-- The coordinator's mutable state: `initial_sync_done` and
`synced_clusters` of `SyncManager`. -/
structure SyncState where
  initial_sync_done : Bool
  synced_clusters : Finset String
deriving DecidableEq

/-- The state `SyncManager::new` starts from. -/
def initState : SyncState := { initial_sync_done := false, synced_clusters := ∅ }

/-- One externally visible step of a coordinator handler. -/
inductive Action where
  | attempt (secret : Secret) (cluster : Cluster)
  | insertSynced (name : String)
  | removeSynced (name : String)
  | setInitialSyncDone
deriving DecidableEq

/-- Results the list API returns while one handler runs: the raw cluster
list and the raw secret list (each may fail). -/
structure Env where
  clusterList : Except String (List Cluster)
  secretList : Except String (List Secret)

/-- Source `sync/manager.rs` `get_ready_clusters`: list clusters, keep the ready,
non-local ones. -/
def get_ready_clusters (env : Env) : Except String (List Cluster) :=
  match env.clusterList with
  | Except.error e => Except.error e
  | Except.ok items => Except.ok (items.filter fun c => c.is_ready && !c.is_local)

/-- Source `sync/secrets.rs` `get_enabled_secrets`: list secrets, keep the enabled
ones. -/
def get_enabled_secrets (env : Env) : Except String (List Secret) :=
  match env.secretList with
  | Except.error e => Except.error e
  | Except.ok items => Except.ok (items.filter is_secret_enabled)

/-- Effect of one `Action` on the coordinator state. -/
def applyAction (st : SyncState) : Action → SyncState
  | Action.attempt _ _ => st
  | Action.insertSynced n => { st with synced_clusters := insert n st.synced_clusters }
  | Action.removeSynced n => { st with synced_clusters := st.synced_clusters.erase n }
  | Action.setInitialSyncDone => { st with initial_sync_done := true }

/-- State reached after a handler's trace. -/
def applyTrace (st : SyncState) (tr : List Action) : SyncState :=
  tr.foldl applyAction st

/-- The distribution attempts recorded in a trace. -/
def attemptsOf (tr : List Action) : List (Secret × Cluster) :=
  tr.filterMap fun a =>
    match a with
    | Action.attempt s c => some (s, c)
    | _ => none

/-- Source `sync/manager.rs` `SyncManager::initial_sync`: list ready clusters (on
error return), list enabled secrets (on error return), attempt every
(secret, cluster) pair, then mark every listed cluster synced, then set the
initial-sync flag. -/
def initial_sync (env : Env) : List Action :=
  match get_ready_clusters env with
  | Except.error _ => []
  | Except.ok clusters =>
    match get_enabled_secrets env with
    | Except.error _ => []
    | Except.ok secrets =>
      (secrets.flatMap fun s => clusters.map fun c => Action.attempt s c)
        ++ (clusters.map fun c => Action.insertSynced c.name_any)
        ++ [Action.setInitialSyncDone]

/-- Source `sync/manager.rs` `SyncManager::handle_secret_changed`: drop the event
while the initial sync is not done; otherwise re-list ready clusters (on
error return) and attempt this one secret on each of them. -/
def handle_secret_changed (env : Env) (st : SyncState) (secret : Secret) : List Action :=
  if !st.initial_sync_done then []
  else
    match get_ready_clusters env with
    | Except.error _ => []
    | Except.ok clusters => clusters.map fun c => Action.attempt secret c

/-- Source `sync/manager.rs` `SyncManager::handle_cluster_ready`: no-op when the
cluster is already in `synced_clusters`; otherwise list enabled secrets (on
error return), attempt each of them on this cluster, then insert the
cluster's name. -/
def handle_cluster_ready (env : Env) (st : SyncState) (cluster : Cluster) : List Action :=
  if cluster.name_any ∈ st.synced_clusters then []
  else
    match get_enabled_secrets env with
    | Except.error _ => []
    | Except.ok secrets =>
      (secrets.map fun s => Action.attempt s cluster)
        ++ [Action.insertSynced cluster.name_any]

/-- Source `sync/manager.rs` `SyncManager::handle_cluster_not_ready`: remove the
name from `synced_clusters`. -/
def handle_cluster_not_ready (name : String) : List Action :=
  [Action.removeSynced name]

/-- Source `sync/manager.rs` `SyncManager::handle_event`. -/
def handle_event (env : Env) (st : SyncState) : SyncEvent → List Action
  | SyncEvent.secretChanged s => handle_secret_changed env st s
  | SyncEvent.clusterBecameReady c => handle_cluster_ready env st c
  | SyncEvent.clusterBecameNotReady n => handle_cluster_not_ready n

/-- The event loop of `SyncManager::run` after the initial sync: process
each event in arrival order, one environment per event, and collect the
per-event traces. -/
def runTraces : SyncState → List (Env × SyncEvent) → SyncState × List (List Action)
  | st, [] => (st, [])
  | st, (env, ev) :: rest =>
    let tr := handle_event env st ev
    let res := runTraces (applyTrace st tr) rest
    (res.1, tr :: res.2)

/-- Source `sync/manager.rs` `SyncManager::run`: one initial sync from the fresh
state, then the event loop.  Returns the final state and the per-phase
traces (the initial sync's trace first, then one trace per event). -/
def sync_manager_run (env0 : Env) (evs : List (Env × SyncEvent)) :
    SyncState × List (List Action) :=
  let tr0 := initial_sync env0
  let res := runTraces (applyTrace initState tr0) evs
  (res.1, tr0 :: res.2)

/-! ## The secret reconciler (`reconcilers/secret.rs`)

`reconcile` either forwards the secret to the coordinator as a
`SecretChanged` event or drops it; both branches return
`Action::await_change()`, so the forwarded event (or its absence) is the
whole observable outcome. -/

/-- Source `reconcilers/secret.rs` `reconcile`: forward a `SecretChanged` event
exactly when the enabled annotation equals `"true"` (the same inline check
as `is_secret_enabled`). -/
def secret_reconcile (secret : Secret) : Option SyncEvent :=
  let is_enabled :=
    match mapGet secret.metadata.annotations ENABLED_KEY with
    | some v => v == "true"
    | none => false
  if !is_enabled then none
  else some (SyncEvent.secretChanged secret)

/-! ## The distribution primitive against a downstream cluster
(`sync/secrets.rs` `copy_secret_to_cluster`, `kubernetes/namespaces.rs`
`ensure_namespace_exists`)

The downstream cluster's API is modelled as a deterministic store: a
namespace `get` succeeds exactly when the namespace is present (otherwise
404), `create` adds it, and the forced server-side apply upserts the object
keyed by (namespace, name).  Transient API failures are outside this model;
the claims about the primitive quantify over calls whose API operations
take their defined branches. -/

/-- The observable state of one downstream cluster: its namespaces and its
secrets keyed by (namespace, name). -/
structure ClusterStore where
  namespaces : List String
  secrets : List ((String × String) × Secret)
deriving DecidableEq

/-- Forced server-side apply of `new_secret` at key `k`: replaces any
existing object with that key, creates it otherwise. -/
def apply_secret (l : List ((String × String) × Secret)) (k : String × String)
    (v : Secret) : List ((String × String) × Secret) :=
  (k, v) :: l.filter fun p => !(p.1 == k)

/-- Source `kubernetes/namespaces.rs` `ensure_namespace_exists`: `get` the
namespace; on 404 (absent) `create` it; on success leave the store
unchanged. -/
def ensure_namespace_exists (st : ClusterStore) (ns : String) : ClusterStore :=
  if ns ∈ st.namespaces then st
  else { st with namespaces := ns :: st.namespaces }

/-- Source `sync/secrets.rs` `copy_secret_to_cluster`, acting on the downstream
store: resolve the target namespace, ensure it exists, then apply the
downstream secret under the `outrider` field manager with force. -/
def copy_secret_to_cluster (st : ClusterStore) (secret : Secret) (config : Config) :
    ClusterStore :=
  let target_namespace := get_target_namespace secret config
  let st1 := ensure_namespace_exists st target_namespace
  let new_secret := create_downstream_secret secret target_namespace
  { st1 with
      secrets := apply_secret st1.secrets (target_namespace, secret.name_any) new_secret }

/-! ## The CRD availability gate (`kubernetes/crd.rs`)

`wait_for_cluster_crd` loops over discovery checks.  The environment is the
(finite prefix of the) sequence of check outcomes; the gate's observable
behaviour is whether it has returned and the list of sleep durations it
performed before returning. -/

/-- Outcome of one `check_cluster_crd_exists` call. -/
inductive CrdCheck where
  | found
  | notFound
  | queryError
deriving DecidableEq

/-- Source `constants.rs` `crd::POLL_INTERVAL_SECS`. -/
def POLL_INTERVAL_SECS : Nat := 10

/-- Source `constants.rs` `crd::POLL_MAX_INTERVAL_SECS`. -/
def POLL_MAX_INTERVAL_SECS : Nat := 60

/-- Source `kubernetes/crd.rs`: `interval = (interval * 2).min(POLL_MAX_INTERVAL_SECS)`. -/
def next_interval (interval : Nat) : Nat :=
  min (interval * 2) POLL_MAX_INTERVAL_SECS

/-- The loop body of `wait_for_cluster_crd` from a given interval: on
`found` return (no further sleep); on `notFound` or `queryError` sleep for
the current interval, double it (capped), and retry.  Returns the list of
sleep durations when some check finds the CRD, `none` when the given
outcome prefix is exhausted without success (the real loop would still be
running). -/
def wait_sleep_list : List CrdCheck → Nat → Option (List Nat)
  | [], _ => none
  | CrdCheck.found :: _, _ => some []
  | CrdCheck.notFound :: rest, interval =>
    (wait_sleep_list rest (next_interval interval)).map fun l => interval :: l
  | CrdCheck.queryError :: rest, interval =>
    (wait_sleep_list rest (next_interval interval)).map fun l => interval :: l

/-- Source `kubernetes/crd.rs` `wait_for_cluster_crd`: the loop started at
`POLL_INTERVAL_SECS`. -/
def wait_for_cluster_crd (outcomes : List CrdCheck) : Option (List Nat) :=
  wait_sleep_list outcomes POLL_INTERVAL_SECS

/-- The interval in effect before the (j+1)-th retry: 10, 20, 40, 60, 60, … -/
def crd_interval_at (j : Nat) : Nat :=
  min (POLL_INTERVAL_SECS * 2 ^ j) POLL_MAX_INTERVAL_SECS

/-! ## Testing-mode downstream client URL (`kubernetes/client.rs`) -/

/-- One step of Rust `str::replace` over the character list: at each
position, a (non-overlapping, leftmost) occurrence of `pat` is replaced by
`rep`; the fuel argument bounds the recursion and never runs out when it
starts at the string length and `pat` is non-empty. -/
def replaceAux (pat rep : List Char) : Nat → List Char → List Char
  | _, [] => []
  | 0, s => s
  | n + 1, c :: rest =>
    if pat.isPrefixOf (c :: rest) then
      rep ++ replaceAux pat rep n ((c :: rest).drop pat.length)
    else c :: replaceAux pat rep n rest

/-- Rust `str::replace`: replace every non-overlapping occurrence of `pat`
(left to right) by `rep`. -/
def rust_replace (s pat rep : String) : String :=
  ⟨replaceAux pat.data rep.data s.data.length s.data⟩

/-- Rust `str::split` over the character list, same traversal as
`replaceAux`: the fragments between the non-overlapping leftmost
occurrences of `pat`. -/
def splitAux (pat : List Char) : Nat → List Char → List Char → List (List Char)
  | _, [], acc => [acc.reverse]
  | 0, s, acc => [acc.reverse ++ s]
  | n + 1, c :: rest, acc =>
    if pat.isPrefixOf (c :: rest) then
      acc.reverse :: splitAux pat n ((c :: rest).drop pat.length) []
    else splitAux pat n rest (c :: acc)

/-- Rust `str::split` on strings. -/
def rust_split (s pat : String) : List String :=
  (splitAux pat.data s.data.length s.data []).map fun cs => (⟨cs⟩ : String)

/-- Rejoin split fragments with a separator between them. -/
def joinWith : List String → String → String
  | [], _ => ""
  | [x], _ => x
  | x :: xs, rep => x ++ rep ++ joinWith xs rep

/-- Rejoin split character fragments with a separator between them. -/
def charsJoin : List (List Char) → List Char → List Char
  | [], _ => []
  | [x], _ => x
  | x :: xs, rep => x ++ rep ++ charsJoin xs rep

/-- Rust `s.rsplit('/').next()`: the substring after the last `/` (the
whole string when there is no `/`); always present. -/
def lastSegAux : List Char → List Char → List Char
  | [], acc => acc.reverse
  | c :: rest, acc => if c = '/' then lastSegAux rest [] else lastSegAux rest (c :: acc)

/-- The last `/`-separated segment of a URL. -/
def last_url_segment (url : String) : String :=
  ⟨lastSegAux url.data []⟩

/-- Source `kubernetes/client.rs` `create_testing_client`, reduced to its URL
computation: when the ambient URL's last `/`-separated segment is `local`,
replace `local` (every occurrence, Rust `str::replace`) with the cluster's
internal name; otherwise keep the URL. -/
def testing_cluster_url (url : String) (cluster : Cluster) : String :=
  if last_url_segment url == "local" then
    rust_replace url "local" cluster.internal_name
  else url

/-- Substitute position 2 of a fragment list (the host of
`scheme://host/rest`) when it equals `local`. -/
def substHostAt : Nat → List String → String → List String
  | _, [], _ => []
  | i, p :: rest, rep =>
    (if i == 2 && p == "local" then rep else p) :: substHostAt (i + 1) rest rep

/-- Modelled from the claim's words (for comparison with
`testing_cluster_url`, which is the code's behaviour): substitute the host
segment `local` of the URL with the cluster's internal identifier, leaving
the rest of the URL unchanged.  The host of `scheme://host/rest` is the
third `/`-separated fragment. -/
def claimed_testing_cluster_url (url : String) (cluster : Cluster) : String :=
  joinWith (substHostAt 0 (rust_split url "/") cluster.internal_name) "/"

/-! ## Helper lemmas -/

/-- A key owned by the operator prefix is absent after the annotation
filter of `create_downstream_secret`. -/
lemma lookup_filter_operator_key (l : List (String × String)) (k : String)
    (h : k.startsWith "outrider.geeko.me/" = true) :
    (l.filter fun kv => !(kv.1.startsWith "outrider.geeko.me/")).lookup k = none := by
  induction l with
  | nil => simp
  | cons hd tl ih =>
    obtain ⟨a, b⟩ := hd
    rw [List.filter_cons]
    by_cases hpre : a.startsWith "outrider.geeko.me/"
    · simp only [hpre, Bool.not_true, if_false]
      exact ih
    · have hpre' : a.startsWith "outrider.geeko.me/" = false := Bool.eq_false_iff.mpr hpre
      have hne : (k == a) = false := by
        rw [beq_eq_false_iff_ne]
        intro he
        rw [← he] at hpre'
        rw [h] at hpre'
        exact absurd hpre' (by decide)
      dsimp only
      rw [hpre']
      simp only [Bool.not_false, if_true]
      rw [List.lookup_cons, hne]
      exact ih

/-- A key outside the operator prefix is looked up unchanged after the
annotation filter of `create_downstream_secret`. -/
lemma lookup_filter_other_key (l : List (String × String)) (k : String)
    (h : k.startsWith "outrider.geeko.me/" = false) :
    (l.filter fun kv => !(kv.1.startsWith "outrider.geeko.me/")).lookup k = l.lookup k := by
  induction l with
  | nil => simp
  | cons hd tl ih =>
    obtain ⟨a, b⟩ := hd
    rw [List.filter_cons]
    by_cases hpre : a.startsWith "outrider.geeko.me/"
    · have hne : (k == a) = false := by
        rw [beq_eq_false_iff_ne]
        intro he
        rw [← he] at hpre
        rw [h] at hpre
        exact absurd hpre (by decide)
      simp only [hpre, Bool.not_true]
      rw [if_neg (by decide)]
      rw [List.lookup_cons, hne]
      exact ih
    · have hpre' : a.startsWith "outrider.geeko.me/" = false := Bool.eq_false_iff.mpr hpre
      dsimp only
      rw [hpre']
      simp only [Bool.not_false, if_true]
      rw [List.lookup_cons, List.lookup_cons]
      cases hk : (k == a)
      · exact ih
      · rfl

/-- Whether an action is a distribution attempt. -/
def Action.isAttempt : Action → Bool
  | Action.attempt _ _ => true
  | _ => false

/-- Lemma: `applyTrace` distributes over trace concatenation. -/
lemma applyTrace_append (st : SyncState) (a b : List Action) :
    applyTrace st (a ++ b) = applyTrace (applyTrace st a) b := by
  unfold applyTrace
  rw [List.foldl_append]

/-- A trace of pure distribution attempts leaves the coordinator state
unchanged. -/
lemma applyTrace_of_attempts (st : SyncState) (tr : List Action)
    (h : ∀ a ∈ tr, a.isAttempt = true) : applyTrace st tr = st := by
  induction tr generalizing st with
  | nil => rfl
  | cons hd tl ih =>
    have hhd := h hd (List.mem_cons_self hd tl)
    have htl : ∀ a ∈ tl, a.isAttempt = true := fun a ha => h a (List.mem_cons_of_mem _ ha)
    cases hd with
    | attempt s c => simpa [applyTrace, applyAction] using ih st htl
    | insertSynced n => simp [Action.isAttempt] at hhd
    | removeSynced n => simp [Action.isAttempt] at hhd
    | setInitialSyncDone => simp [Action.isAttempt] at hhd

/-- Every action in a mapped attempt list is an attempt. -/
lemma mem_map_attempt_isAttempt {α : Type} (f : α → Secret) (g : α → Cluster)
    (xs : List α) : ∀ a ∈ xs.map fun x => Action.attempt (f x) (g x), a.isAttempt = true := by
  intro a ha
  obtain ⟨x, _, rfl⟩ := List.mem_map.mp ha
  rfl

/-- Membership in `attemptsOf`. -/
lemma mem_attemptsOf (tr : List Action) (pr : Secret × Cluster) :
    pr ∈ attemptsOf tr ↔ Action.attempt pr.1 pr.2 ∈ tr := by
  unfold attemptsOf
  rw [List.mem_filterMap]
  constructor
  · rintro ⟨a, ha, hfa⟩
    cases a with
    | attempt s c =>
      obtain rfl := Option.some.inj hfa
      exact ha
    | insertSynced n => simp at hfa
    | removeSynced n => simp at hfa
    | setInitialSyncDone => simp at hfa
  · intro ha
    exact ⟨Action.attempt pr.1 pr.2, ha, rfl⟩

/-- Lemma: `attemptsOf` distributes over concatenation. -/
lemma attemptsOf_append (a b : List Action) :
    attemptsOf (a ++ b) = attemptsOf a ++ attemptsOf b := by
  unfold attemptsOf
  exact List.filterMap_append ..

/-- The attempts of a per-cluster fan-out of one secret. -/
lemma attemptsOf_map_cluster (secret : Secret) (cs : List Cluster) :
    attemptsOf (cs.map fun c => Action.attempt secret c) = cs.map fun c => (secret, c) := by
  unfold attemptsOf
  induction cs with
  | nil => rfl
  | cons hd tl ih =>
    simp only [List.map_cons, List.filterMap_cons]
    rw [ih]

/-- The attempts of a per-secret fan-out onto one cluster. -/
lemma attemptsOf_map_secret (cluster : Cluster) (ss : List Secret) :
    attemptsOf (ss.map fun s => Action.attempt s cluster) = ss.map fun s => (s, cluster) := by
  unfold attemptsOf
  induction ss with
  | nil => rfl
  | cons hd tl ih =>
    simp only [List.map_cons, List.filterMap_cons]
    rw [ih]

/-- Marking clusters synced records no attempts. -/
lemma attemptsOf_map_insert (cs : List Cluster) :
    attemptsOf (cs.map fun c => Action.insertSynced c.name_any) = [] := by
  unfold attemptsOf
  induction cs with
  | nil => rfl
  | cons hd tl ih =>
    simp only [List.map_cons, List.filterMap_cons]
    exact ih

/-! ## Claim theorems -/

/-- C6: the downstream object built by the copy operation keeps the source
name, lands in the namespace resolved from the override annotation (falling
back to `config.default_target_namespace`), keeps labels, data payload,
type and immutability, drops every annotation key with the
`outrider.geeko.me/` prefix and preserves every other annotation
unchanged. -/
theorem downstream_secret_shape (secret : Secret) (config : Config) :
    (create_downstream_secret secret (get_target_namespace secret config)).metadata.name
        = secret.metadata.name
    ∧ (create_downstream_secret secret (get_target_namespace secret config)).metadata.namespace'
        = some ((mapGet secret.metadata.annotations NAMESPACE_KEY).getD
            config.default_target_namespace)
    ∧ (create_downstream_secret secret (get_target_namespace secret config)).metadata.labels
        = secret.metadata.labels
    ∧ (create_downstream_secret secret (get_target_namespace secret config)).data = secret.data
    ∧ (create_downstream_secret secret (get_target_namespace secret config)).string_data
        = secret.string_data
    ∧ (create_downstream_secret secret (get_target_namespace secret config)).type'
        = secret.type'
    ∧ (create_downstream_secret secret (get_target_namespace secret config)).immutable
        = secret.immutable
    ∧ ∀ k, mapGet
        (create_downstream_secret secret (get_target_namespace secret config)).metadata.annotations
        k = if k.startsWith "outrider.geeko.me/" then none
            else mapGet secret.metadata.annotations k := by
  refine ⟨rfl, rfl, rfl, rfl, rfl, rfl, rfl, ?_⟩
  intro k
  cases hann : secret.metadata.annotations with
  | none =>
    simp [create_downstream_secret, mapGet, hann]
  | some l =>
    cases hk : k.startsWith "outrider.geeko.me/" with
    | true =>
      simp only [create_downstream_secret, mapGet, hann, Option.map_some, Option.bind_some,
        if_pos hk]
      exact lookup_filter_operator_key l k hk
    | false =>
      simp only [create_downstream_secret, mapGet, hann, Option.map_some, Option.bind_some]
      rw [if_neg (by simp [hk])]
      exact lookup_filter_other_key l k hk

/-- The namespace ensured by `ensure_namespace_exists` is present
afterwards. -/
lemma mem_ensure_namespace (st : ClusterStore) (ns : String) :
    ns ∈ (ensure_namespace_exists st ns).namespaces := by
  by_cases h : ns ∈ st.namespaces <;> simp [ensure_namespace_exists, h]

/-- Lemma: `ensure_namespace_exists` is the identity when the namespace already
exists (the `get` succeeds and nothing is created). -/
lemma ensure_namespace_of_mem (st : ClusterStore) (ns : String)
    (h : ns ∈ st.namespaces) : ensure_namespace_exists st ns = st := by
  simp [ensure_namespace_exists, h]

/-- A forced apply at the same key with the same object is idempotent. -/
lemma apply_secret_idem (l : List ((String × String) × Secret)) (k : String × String)
    (v : Secret) : apply_secret (apply_secret l k v) k v = apply_secret l k v := by
  unfold apply_secret
  rw [List.filter_cons]
  simp only [beq_self_eq_true, Bool.not_true]
  rw [if_neg (by decide)]
  rw [List.filter_filter]
  simp [Bool.and_self]

/-- After a forced apply exactly one stored object has the applied key. -/
lemma apply_secret_count (l : List ((String × String) × Secret)) (k : String × String)
    (v : Secret) : ((apply_secret l k v).countP fun p => p.1 == k) = 1 := by
  unfold apply_secret
  rw [List.countP_cons]
  have hz : ((l.filter fun p => !(p.1 == k)).countP fun p => p.1 == k) = 0 := by
    rw [List.countP_eq_zero]
    intro p hp
    have := (List.mem_filter.mp hp).2
    simp at this
    simp [this]
  simp [hz, beq_self_eq_true]

/-- C7: two successive `copy_secret_to_cluster` calls with identical input
leave exactly one downstream object, equal to the one left by a single
call: the second call's namespace read finds the namespace ensured by the
first call, and the forced server-side apply overwrites to the same
state. -/
theorem copy_secret_to_cluster_idempotent (st : ClusterStore) (secret : Secret)
    (config : Config) :
    get_target_namespace secret config
        ∈ (copy_secret_to_cluster st secret config).namespaces
    ∧ copy_secret_to_cluster (copy_secret_to_cluster st secret config) secret config
        = copy_secret_to_cluster st secret config
    ∧ ((copy_secret_to_cluster st secret config).secrets.countP
        fun p => p.1 == (get_target_namespace secret config, secret.name_any)) = 1 := by
  refine ⟨?_, ?_, ?_⟩
  · unfold copy_secret_to_cluster
    exact mem_ensure_namespace st (get_target_namespace secret config)
  · have hmem2 : get_target_namespace secret config
        ∈ (copy_secret_to_cluster st secret config).namespaces :=
      mem_ensure_namespace st (get_target_namespace secret config)
    have hrec := ensure_namespace_of_mem _ _ hmem2
    calc copy_secret_to_cluster (copy_secret_to_cluster st secret config) secret config
        = { namespaces := (ensure_namespace_exists (copy_secret_to_cluster st secret config)
              (get_target_namespace secret config)).namespaces
            secrets := apply_secret
              (ensure_namespace_exists (copy_secret_to_cluster st secret config)
                (get_target_namespace secret config)).secrets
              (get_target_namespace secret config, secret.name_any)
              (create_downstream_secret secret (get_target_namespace secret config)) } := rfl
      _ = { namespaces := (copy_secret_to_cluster st secret config).namespaces
            secrets := apply_secret (copy_secret_to_cluster st secret config).secrets
              (get_target_namespace secret config, secret.name_any)
              (create_downstream_secret secret (get_target_namespace secret config)) } := by
          rw [hrec]
      _ = copy_secret_to_cluster st secret config := by
          have happ : apply_secret (copy_secret_to_cluster st secret config).secrets
              (get_target_namespace secret config, secret.name_any)
              (create_downstream_secret secret (get_target_namespace secret config))
              = (copy_secret_to_cluster st secret config).secrets :=
            apply_secret_idem ..
          rw [happ]
  · unfold copy_secret_to_cluster
    exact apply_secret_count ..

/-- Doubling a capped interval advances the backoff sequence by one. -/
lemma next_interval_crd_interval_at (k : Nat) :
    next_interval (crd_interval_at k) = crd_interval_at (k + 1) := by
  unfold next_interval crd_interval_at POLL_INTERVAL_SECS POLL_MAX_INTERVAL_SECS
  have h2 : 10 * 2 ^ (k + 1) = 10 * 2 ^ k * 2 := by ring
  rw [h2]
  generalize 10 * 2 ^ k = a
  omega

/-- The gate's loop, started anywhere in the backoff sequence: it returns
exactly at the first successful check, and the sleeps performed follow the
capped-doubling sequence from the starting point. -/
lemma wait_sleep_list_spec (outcomes : List CrdCheck) :
    ∀ k l, wait_sleep_list outcomes (crd_interval_at k) = some l →
      outcomes[l.length]? = some CrdCheck.found
      ∧ (∀ j, j < l.length → outcomes[j]? ≠ some CrdCheck.found)
      ∧ l = (List.range l.length).map fun j => crd_interval_at (k + j) := by
  induction outcomes with
  | nil => intro k l h; simp [wait_sleep_list] at h
  | cons hd tl ih =>
    intro k l h
    cases hd with
    | found =>
      rw [wait_sleep_list] at h
      obtain rfl := Option.some.inj h
      exact ⟨by simp, by intro j hj; simp at hj, rfl⟩
    | notFound =>
      rw [wait_sleep_list, next_interval_crd_interval_at] at h
      obtain ⟨l2, hl2, rfl⟩ := Option.map_eq_some'.mp h
      obtain ⟨h1, h2, h3⟩ := ih (k + 1) l2 hl2
      refine ⟨by simpa using h1, ?_, ?_⟩
      · intro j hj
        cases j with
        | zero => simp
        | succ j =>
          simp only [List.length_cons] at hj
          simpa using h2 j (Nat.lt_of_succ_lt_succ hj)
      · simp only [List.length_cons]
        rw [List.range_succ_eq_map, List.map_cons, List.map_map]
        refine congrArg₂ List.cons ?_ ?_
        · show crd_interval_at k = crd_interval_at (k + 0)
          norm_num
        · nth_rewrite 1 [h3]
          refine List.map_congr_left ?_
          intro j hj
          show crd_interval_at (k + 1 + j) = crd_interval_at (k + (j + 1))
          congr 1
          omega
    | queryError =>
      rw [wait_sleep_list, next_interval_crd_interval_at] at h
      obtain ⟨l2, hl2, rfl⟩ := Option.map_eq_some'.mp h
      obtain ⟨h1, h2, h3⟩ := ih (k + 1) l2 hl2
      refine ⟨by simpa using h1, ?_, ?_⟩
      · intro j hj
        cases j with
        | zero => simp
        | succ j =>
          simp only [List.length_cons] at hj
          simpa using h2 j (Nat.lt_of_succ_lt_succ hj)
      · simp only [List.length_cons]
        rw [List.range_succ_eq_map, List.map_cons, List.map_map]
        refine congrArg₂ List.cons ?_ ?_
        · show crd_interval_at k = crd_interval_at (k + 0)
          norm_num
        · nth_rewrite 1 [h3]
          refine List.map_congr_left ?_
          intro j hj
          show crd_interval_at (k + 1 + j) = crd_interval_at (k + (j + 1))
          congr 1
          omega

/-- C8: `wait_for_cluster_crd` returns only once a discovery check reports
the Cluster CRD present; every unsuccessful or failed check is followed by
one sleep, and the sleeps form the capped-doubling sequence
10, 20, 40, 60, 60, …: starting at 10, doubling after each retry, never
exceeding 60. -/
theorem wait_for_cluster_crd_backoff (outcomes : List CrdCheck) (l : List Nat)
    (h : wait_for_cluster_crd outcomes = some l) :
    outcomes[l.length]? = some CrdCheck.found
    ∧ (∀ j, j < l.length → outcomes[j]? ≠ some CrdCheck.found)
    ∧ l = ((List.range l.length).map fun j => min (10 * 2 ^ j) 60)
    ∧ (l ≠ [] → l[0]? = some 10)
    ∧ (∀ j, j + 1 < l.length → l[j + 1]? = (l[j]?).map next_interval)
    ∧ (∀ x ∈ l, x ≤ 60) := by
  have h10 : crd_interval_at 0 = POLL_INTERVAL_SECS := by
    unfold crd_interval_at POLL_INTERVAL_SECS POLL_MAX_INTERVAL_SECS
    norm_num
  rw [wait_for_cluster_crd, ← h10] at h
  obtain ⟨h1, h2, h3⟩ := wait_sleep_list_spec outcomes 0 l h
  have hmin : ∀ j : Nat, crd_interval_at (0 + j) = min (10 * 2 ^ j) 60 := by
    intro j
    rw [Nat.zero_add]
    rfl
  have h3' : l = ((List.range l.length).map fun j => min (10 * 2 ^ j) 60) := by
    conv_lhs => rw [h3]
    exact List.map_congr_left fun j _ => hmin j
  refine ⟨h1, h2, h3', ?_, ?_, ?_⟩
  · intro hne
    have hlen : 0 < l.length := List.length_pos.mpr hne
    conv_lhs => rw [h3']
    rw [List.getElem?_map, List.getElem?_range hlen]
    norm_num
  · intro j hj
    have hjlt : j < l.length := Nat.lt_of_succ_lt hj
    conv_lhs => rw [h3']
    conv_rhs => rw [h3']
    rw [List.getElem?_map, List.getElem?_map, List.getElem?_range hj,
      List.getElem?_range hjlt]
    simp only [Option.map_some']
    have hstep : next_interval (min (10 * 2 ^ j) 60) = min (10 * 2 ^ (j + 1)) 60 := by
      have hx := next_interval_crd_interval_at j
      unfold crd_interval_at POLL_INTERVAL_SECS POLL_MAX_INTERVAL_SECS at hx
      exact hx
    rw [hstep]
  · intro x hx
    rw [h3'] at hx
    obtain ⟨j, _, rfl⟩ := List.mem_map.mp hx
    exact Nat.min_le_right ..

/-- Witness for C8: a run whose first five checks fail sleeps exactly
10, 20, 40, 60, 60 seconds and returns at the sixth check. -/
theorem wait_for_cluster_crd_backoff_witness :
    [CrdCheck.notFound, CrdCheck.queryError, CrdCheck.notFound, CrdCheck.notFound,
        CrdCheck.notFound, CrdCheck.found][([10, 20, 40, 60, 60] : List Nat).length]?
      = some CrdCheck.found
    ∧ (∀ j, j < ([10, 20, 40, 60, 60] : List Nat).length →
        [CrdCheck.notFound, CrdCheck.queryError, CrdCheck.notFound, CrdCheck.notFound,
          CrdCheck.notFound, CrdCheck.found][j]? ≠ some CrdCheck.found)
    ∧ ([10, 20, 40, 60, 60] : List Nat)
        = ((List.range ([10, 20, 40, 60, 60] : List Nat).length).map
            fun j => min (10 * 2 ^ j) 60)
    ∧ (([10, 20, 40, 60, 60] : List Nat) ≠ []
        → ([10, 20, 40, 60, 60] : List Nat)[0]? = some 10)
    ∧ (∀ j, j + 1 < ([10, 20, 40, 60, 60] : List Nat).length →
        ([10, 20, 40, 60, 60] : List Nat)[j + 1]?
          = (([10, 20, 40, 60, 60] : List Nat)[j]?).map next_interval)
    ∧ (∀ x ∈ ([10, 20, 40, 60, 60] : List Nat), x ≤ 60) :=
  wait_for_cluster_crd_backoff
    [CrdCheck.notFound, CrdCheck.queryError, CrdCheck.notFound, CrdCheck.notFound,
      CrdCheck.notFound, CrdCheck.found] [10, 20, 40, 60, 60] (by decide)

/-! ### Concrete fixtures used by witnesses and counterexamples -/

/-- A metadata value with only a name. -/
def namedMeta (n : String) : ObjectMeta :=
  { name := some n, namespace' := none, labels := none, annotations := none }

/-- An empty cluster spec. -/
def emptySpec : ClusterSpec :=
  { kubernetes_version := none, local' := none, display_name := none }

/-- A minimal cluster named `c1` with no status. -/
def clusterC1 : Cluster :=
  { metadata := namedMeta "c1", spec := emptySpec, status := none }

/-- A ready, non-local cluster named `c2` with internal name `c-123`. -/
def clusterC2 : Cluster :=
  { metadata := namedMeta "c2", spec := emptySpec
    status := some
      { client_secret_name := none, cluster_name := "c-123", ready := some true
        conditions := some [{ condition_type := "Ready", status := "True", message := none }] } }

/-- An enabled secret named `s1`. -/
def secretS1 : Secret :=
  { metadata :=
      { name := some "s1", namespace' := some "app", labels := some [("team", "a")]
        annotations := some [(ENABLED_KEY, "true"), ("keep.this/a", "v")] }
    data := some [("password", "secret123")], string_data := none
    type' := some "Opaque", immutable := none }

/-- An enabled secret named `s2`. -/
def secretS2 : Secret :=
  { metadata :=
      { name := some "s2", namespace' := some "app", labels := none
        annotations := some [(ENABLED_KEY, "true")] }
    data := none, string_data := none, type' := some "Opaque", immutable := none }

/-- A secret without the enabled annotation. -/
def secretPlain : Secret :=
  { metadata :=
      { name := some "p1", namespace' := some "app", labels := none
        annotations := some [("keep.this/a", "v")] }
    data := none, string_data := none, type' := none, immutable := none }

/-- An environment whose two listings return empty lists. -/
def emptyEnv : Env := { clusterList := Except.ok [], secretList := Except.ok [] }

/-- An environment listing one ready cluster and two enabled secrets. -/
def demoEnv : Env :=
  { clusterList := Except.ok [clusterC1, clusterC2]
    secretList := Except.ok [secretS1, secretPlain, secretS2] }

/-- An environment whose cluster listing fails. -/
def failingEnv : Env :=
  { clusterList := Except.error "boom", secretList := Except.ok [secretS1] }

/-- C1: `handle_cluster_ready` is a no-op (no attempts, no state change)
when the cluster's name is already in the synced set; otherwise, with the
enabled-secret listing succeeding, it attempts each enabled secret on this
one cluster (continuing past individual failures is built into the attempt
trace) and only after those attempts inserts the cluster's name into the
synced set. -/
theorem handle_cluster_ready_spec (env : Env) (st : SyncState) (cluster : Cluster) :
    (cluster.name_any ∈ st.synced_clusters →
        handle_cluster_ready env st cluster = []
        ∧ applyTrace st (handle_cluster_ready env st cluster) = st)
    ∧ (cluster.name_any ∉ st.synced_clusters → ∀ ss, get_enabled_secrets env = Except.ok ss →
        handle_cluster_ready env st cluster
          = (ss.map fun s => Action.attempt s cluster)
            ++ [Action.insertSynced cluster.name_any]
        ∧ attemptsOf (handle_cluster_ready env st cluster)
            = (ss.map fun s => (s, cluster))
        ∧ applyTrace st (handle_cluster_ready env st cluster)
          = { st with synced_clusters := insert cluster.name_any st.synced_clusters }) := by
  constructor
  · intro hmem
    have htr : handle_cluster_ready env st cluster = [] := by
      unfold handle_cluster_ready
      rw [if_pos hmem]
    exact ⟨htr, by rw [htr]; rfl⟩
  · intro hmem ss hss
    have htr : handle_cluster_ready env st cluster
        = (ss.map fun s => Action.attempt s cluster)
          ++ [Action.insertSynced cluster.name_any] := by
      unfold handle_cluster_ready
      rw [if_neg hmem, hss]
    refine ⟨htr, ?_, ?_⟩
    · rw [htr, attemptsOf_append, attemptsOf_map_secret]
      simp [attemptsOf]
    · rw [htr, applyTrace_append,
        applyTrace_of_attempts st _ (mem_map_attempt_isAttempt (fun s => s) (fun _ => cluster) ss)]
      rfl

/-- Witness for C1, at concrete inputs exercising both branches: a synced
cluster is skipped entirely; an unsynced cluster receives the fan-out trace
ending in its insertion. -/
theorem handle_cluster_ready_spec_witness :
    (handle_cluster_ready emptyEnv
          { initial_sync_done := true, synced_clusters := {"c1"} } clusterC1 = []
      ∧ applyTrace { initial_sync_done := true, synced_clusters := {"c1"} }
          (handle_cluster_ready emptyEnv
            { initial_sync_done := true, synced_clusters := {"c1"} } clusterC1)
          = { initial_sync_done := true, synced_clusters := {"c1"} })
    ∧ handle_cluster_ready demoEnv
        { initial_sync_done := true, synced_clusters := ∅ } clusterC2
        = ([secretS1, secretS2].map fun s => Action.attempt s clusterC2)
          ++ [Action.insertSynced (Cluster.name_any clusterC2)] :=
  ⟨(handle_cluster_ready_spec emptyEnv
      { initial_sync_done := true, synced_clusters := {"c1"} } clusterC1).1 (by decide),
   ((handle_cluster_ready_spec demoEnv
      { initial_sync_done := true, synced_clusters := ∅ } clusterC2).2 (by decide)
      [secretS1, secretS2] rfl).1⟩

/-- C4: `handle_secret_changed` drops the event (zero attempts) while the
initial-sync flag is false; with the flag true and the ready-cluster
listing succeeding it attempts this one secret on every ready non-local
cluster; it never mutates the coordinator state. -/
theorem handle_secret_changed_spec (env : Env) (st : SyncState) (secret : Secret) :
    (st.initial_sync_done = false → handle_secret_changed env st secret = [])
    ∧ (st.initial_sync_done = true → ∀ cs, get_ready_clusters env = Except.ok cs →
        handle_secret_changed env st secret = (cs.map fun c => Action.attempt secret c)
        ∧ attemptsOf (handle_secret_changed env st secret) = (cs.map fun c => (secret, c)))
    ∧ applyTrace st (handle_secret_changed env st secret) = st := by
  refine ⟨?_, ?_, ?_⟩
  · intro hflag
    unfold handle_secret_changed
    rw [hflag]
    rfl
  · intro hflag cs hcs
    have htr : handle_secret_changed env st secret
        = cs.map fun c => Action.attempt secret c := by
      unfold handle_secret_changed
      rw [hflag, hcs]
      rfl
    exact ⟨htr, by rw [htr, attemptsOf_map_cluster]⟩
  · unfold handle_secret_changed
    cases hflag : st.initial_sync_done with
    | false => rfl
    | true =>
      cases hcl : get_ready_clusters env with
      | error e => rfl
      | ok cs =>
        simp only [Bool.not_true, Bool.false_eq_true, if_false]
        exact applyTrace_of_attempts st _
          (mem_map_attempt_isAttempt (fun _ => secret) (fun c => c) cs)

/-- Witness for C4, at concrete inputs exercising both branches: an event
before the initial sync is dropped, one after it fans the secret out to the
one ready non-local cluster. -/
theorem handle_secret_changed_spec_witness :
    (handle_secret_changed demoEnv initState secretS1 = [])
    ∧ handle_secret_changed demoEnv
        { initial_sync_done := true, synced_clusters := ∅ } secretS1
        = [Action.attempt secretS1 clusterC2] :=
  ⟨(handle_secret_changed_spec demoEnv initState secretS1).1 rfl,
   ((handle_secret_changed_spec demoEnv
      { initial_sync_done := true, synced_clusters := ∅ } secretS1).2.1 rfl
      [clusterC2] rfl).1⟩

/-- The attempts of the startup cross-product fan-out. -/
lemma attemptsOf_flatMap_cross (ss : List Secret) (cs : List Cluster) :
    attemptsOf (ss.flatMap fun s => cs.map fun c => Action.attempt s c)
      = ss.flatMap fun s => cs.map fun c => (s, c) := by
  induction ss with
  | nil => rfl
  | cons hd tl ih =>
    simp only [List.flatMap_cons]
    rw [attemptsOf_append, attemptsOf_map_cluster, ih]

/-- The cross product of M secrets and N clusters has M×N elements. -/
lemma length_flatMap_cross (ss : List Secret) (cs : List Cluster) :
    (ss.flatMap fun s => cs.map fun c => ((s, c) : Secret × Cluster)).length
      = ss.length * cs.length := by
  induction ss with
  | nil => simp
  | cons hd tl ih =>
    simp only [List.flatMap_cons, List.length_append, List.length_map, List.length_cons, ih]
    ring

/-- A set folded through insertions contains what it started with. -/
lemma subset_foldl_insert (g : Cluster → String) (l : List Cluster) (init : Finset String) :
    init ⊆ l.foldl (fun s c => insert (g c) s) init := by
  induction l generalizing init with
  | nil => exact Finset.Subset.refl init
  | cons hd tl ih =>
    exact Finset.Subset.trans (Finset.subset_insert (g hd) init) (ih (insert (g hd) init))

/-- Every inserted name is present after the fold. -/
lemma mem_foldl_insert (g : Cluster → String) (l : List Cluster) (init : Finset String)
    (c : Cluster) (h : c ∈ l) : g c ∈ l.foldl (fun s x => insert (g x) s) init := by
  induction l generalizing init with
  | nil => simp at h
  | cons hd tl ih =>
    rcases List.mem_cons.mp h with heq | hmem
    · subst heq
      exact subset_foldl_insert g tl (insert (g c) init) (Finset.mem_insert_self (g c) init)
    · exact ih (insert (g hd) init) hmem

/-- Applying the synced-set insertions marks every listed cluster. -/
lemma applyTrace_map_insert_synced (st : SyncState) (cs : List Cluster) :
    applyTrace st (cs.map fun c => Action.insertSynced c.name_any)
      = { st with synced_clusters :=
            cs.foldl (fun s c => insert c.name_any s) st.synced_clusters } := by
  induction cs generalizing st with
  | nil => rfl
  | cons hd tl ih =>
    simp only [List.map_cons, List.foldl_cons]
    exact ih { st with synced_clusters := insert hd.name_any st.synced_clusters }

/-- C2: with both startup listings succeeding and yielding N ready
non-local clusters and M enabled secrets, `initial_sync` attempts exactly
the N×M (secret, cluster) pairs (continuing past individual failures),
then marks every enumerated cluster synced, then sets the initial-sync
flag. -/
theorem initial_sync_spec (env : Env) (st : SyncState) (cs : List Cluster) (ss : List Secret)
    (hc : get_ready_clusters env = Except.ok cs)
    (hs : get_enabled_secrets env = Except.ok ss) :
    initial_sync env
        = (ss.flatMap fun s => cs.map fun c => Action.attempt s c)
          ++ (cs.map fun c => Action.insertSynced c.name_any)
          ++ [Action.setInitialSyncDone]
    ∧ attemptsOf (initial_sync env) = (ss.flatMap fun s => cs.map fun c => (s, c))
    ∧ (attemptsOf (initial_sync env)).length = ss.length * cs.length
    ∧ (∀ c ∈ cs, c.name_any ∈ (applyTrace st (initial_sync env)).synced_clusters)
    ∧ (applyTrace st (initial_sync env)).initial_sync_done = true := by
  have htr : initial_sync env
      = (ss.flatMap fun s => cs.map fun c => Action.attempt s c)
        ++ (cs.map fun c => Action.insertSynced c.name_any)
        ++ [Action.setInitialSyncDone] := by
    unfold initial_sync
    rw [hc, hs]
  have hatt : attemptsOf (initial_sync env)
      = (ss.flatMap fun s => cs.map fun c => (s, c)) := by
    rw [htr, attemptsOf_append, attemptsOf_append, attemptsOf_flatMap_cross,
      attemptsOf_map_insert]
    simp [attemptsOf]
  have hA : applyTrace st (ss.flatMap fun s => cs.map fun c => Action.attempt s c) = st := by
    apply applyTrace_of_attempts
    intro a ha
    obtain ⟨s, _, ha2⟩ := List.mem_flatMap.mp ha
    obtain ⟨c, _, rfl⟩ := List.mem_map.mp ha2
    rfl
  refine ⟨htr, hatt, ?_, ?_, ?_⟩
  · rw [hatt]
    exact length_flatMap_cross ss cs
  · intro c hcmem
    rw [htr, applyTrace_append, applyTrace_append, hA, applyTrace_map_insert_synced]
    exact mem_foldl_insert Cluster.name_any cs st.synced_clusters c hcmem
  · rw [htr, applyTrace_append, applyTrace_append, hA, applyTrace_map_insert_synced]
    rfl

/-- Witness for C2: one ready non-local cluster and two enabled secrets
give exactly 2×1 attempts, the cluster marked synced, the flag set. -/
theorem initial_sync_spec_witness :
    initial_sync demoEnv
        = ([secretS1, secretS2].flatMap fun s => [clusterC2].map fun c => Action.attempt s c)
          ++ ([clusterC2].map fun c => Action.insertSynced c.name_any)
          ++ [Action.setInitialSyncDone]
    ∧ attemptsOf (initial_sync demoEnv)
        = ([secretS1, secretS2].flatMap fun s => [clusterC2].map fun c => (s, c))
    ∧ (attemptsOf (initial_sync demoEnv)).length
        = ([secretS1, secretS2] : List Secret).length * ([clusterC2] : List Cluster).length
    ∧ (∀ c ∈ ([clusterC2] : List Cluster),
        c.name_any ∈ (applyTrace initState (initial_sync demoEnv)).synced_clusters)
    ∧ (applyTrace initState (initial_sync demoEnv)).initial_sync_done = true :=
  initial_sync_spec demoEnv initState [clusterC2] [secretS1, secretS2] rfl rfl

/-- Lemma: `applyTrace` on the empty trace. -/
lemma applyTrace_nil (st : SyncState) : applyTrace st [] = st := rfl

/-- Lemma: `applyTrace` step. -/
lemma applyTrace_cons (st : SyncState) (a : Action) (tr : List Action) :
    applyTrace st (a :: tr) = applyTrace (applyAction st a) tr := rfl

/-- C3: for a cluster already synced, the trace ready → not-ready → ready
produces exactly one additional full fan-out, on the second ready
transition (none on the first, none on the not-ready event); the not-ready
event removes the cluster from the synced set unconditionally and
idempotently, with no other state change. -/
theorem cluster_flap_single_refanout (st : SyncState) (cluster : Cluster)
    (env1 env2 env3 : Env) (ss : List Secret)
    (hmem : cluster.name_any ∈ st.synced_clusters)
    (hss : get_enabled_secrets env3 = Except.ok ss) :
    (runTraces st [(env1, SyncEvent.clusterBecameReady cluster),
        (env2, SyncEvent.clusterBecameNotReady cluster.name_any),
        (env3, SyncEvent.clusterBecameReady cluster)]).2
      = [[], [Action.removeSynced cluster.name_any],
         (ss.map fun s => Action.attempt s cluster) ++ [Action.insertSynced cluster.name_any]]
    ∧ attemptsOf ((runTraces st [(env1, SyncEvent.clusterBecameReady cluster),
        (env2, SyncEvent.clusterBecameNotReady cluster.name_any),
        (env3, SyncEvent.clusterBecameReady cluster)]).2.flatten)
      = (ss.map fun s => (s, cluster))
    ∧ (runTraces st [(env1, SyncEvent.clusterBecameReady cluster),
        (env2, SyncEvent.clusterBecameNotReady cluster.name_any),
        (env3, SyncEvent.clusterBecameReady cluster)]).1 = st
    ∧ (∀ st' n, applyTrace st' (handle_cluster_not_ready n)
        = { st' with synced_clusters := st'.synced_clusters.erase n })
    ∧ (∀ st' n, applyTrace (applyTrace st' (handle_cluster_not_ready n))
          (handle_cluster_not_ready n)
        = applyTrace st' (handle_cluster_not_ready n)) := by
  have h1 : handle_event env1 st (SyncEvent.clusterBecameReady cluster) = [] := by
    show handle_cluster_ready env1 st cluster = []
    unfold handle_cluster_ready
    rw [if_pos hmem]
  have hnotmem : cluster.name_any ∉
      ({ st with synced_clusters := st.synced_clusters.erase cluster.name_any }
        : SyncState).synced_clusters :=
    Finset.not_mem_erase cluster.name_any st.synced_clusters
  have h3 : handle_event env3
      { st with synced_clusters := st.synced_clusters.erase cluster.name_any }
      (SyncEvent.clusterBecameReady cluster)
      = (ss.map fun s => Action.attempt s cluster)
        ++ [Action.insertSynced cluster.name_any] := by
    show handle_cluster_ready env3 _ cluster = _
    unfold handle_cluster_ready
    rw [if_neg hnotmem, hss]
  have hApure : applyTrace
      ({ st with synced_clusters := st.synced_clusters.erase cluster.name_any } : SyncState)
      (ss.map fun s => Action.attempt s cluster)
      = { st with synced_clusters := st.synced_clusters.erase cluster.name_any } :=
    applyTrace_of_attempts _ _ (mem_map_attempt_isAttempt (fun s => s) (fun _ => cluster) ss)
  have hpair : runTraces st [(env1, SyncEvent.clusterBecameReady cluster),
        (env2, SyncEvent.clusterBecameNotReady cluster.name_any),
        (env3, SyncEvent.clusterBecameReady cluster)]
      = ({ st with synced_clusters :=
              insert cluster.name_any (st.synced_clusters.erase cluster.name_any) },
         [[], [Action.removeSynced cluster.name_any],
          (ss.map fun s => Action.attempt s cluster)
            ++ [Action.insertSynced cluster.name_any]]) := by
    simp only [runTraces, h1, applyTrace_nil]
    have h2 : handle_event env2 st (SyncEvent.clusterBecameNotReady cluster.name_any)
        = [Action.removeSynced cluster.name_any] := rfl
    rw [h2]
    have hst2 : applyTrace st [Action.removeSynced cluster.name_any]
        = { st with synced_clusters := st.synced_clusters.erase cluster.name_any } := rfl
    rw [hst2, h3]
    rw [applyTrace_append, hApure]
    rfl
  rw [hpair]
  refine ⟨rfl, ?_, ?_, ?_, ?_⟩
  · show attemptsOf ([[], [Action.removeSynced cluster.name_any],
        (ss.map fun s => Action.attempt s cluster)
          ++ [Action.insertSynced cluster.name_any]] : List (List Action)).flatten
      = (ss.map fun s => (s, cluster))
    have hft : ([[], [Action.removeSynced cluster.name_any],
        (ss.map fun s => Action.attempt s cluster)
          ++ [Action.insertSynced cluster.name_any]] : List (List Action)).flatten
        = [Action.removeSynced cluster.name_any]
          ++ ((ss.map fun s => Action.attempt s cluster)
            ++ [Action.insertSynced cluster.name_any]) := by
      simp
    rw [hft, attemptsOf_append, attemptsOf_append, attemptsOf_map_secret]
    simp [attemptsOf]
  · show ({ st with synced_clusters := insert cluster.name_any (st.synced_clusters.erase cluster.name_any) } : SyncState) = st
    rw [Finset.insert_erase hmem]
  · intro st' n
    rfl
  · intro st' n
    have htwice : applyTrace (applyTrace st' (handle_cluster_not_ready n))
        (handle_cluster_not_ready n)
        = { st' with synced_clusters := (st'.synced_clusters.erase n).erase n } := rfl
    rw [htwice, Finset.erase_idem]
    rfl

/-- Witness for C3: cluster `c2`, synced, flaps not-ready and ready again;
the two enabled secrets are fanned out exactly once more. -/
theorem cluster_flap_single_refanout_witness :
    (runTraces { initial_sync_done := true, synced_clusters := {"c2"} }
        [(demoEnv, SyncEvent.clusterBecameReady clusterC2),
         (demoEnv, SyncEvent.clusterBecameNotReady clusterC2.name_any),
         (demoEnv, SyncEvent.clusterBecameReady clusterC2)]).2
      = [[], [Action.removeSynced clusterC2.name_any],
         ([secretS1, secretS2].map fun s => Action.attempt s clusterC2)
           ++ [Action.insertSynced clusterC2.name_any]]
    ∧ attemptsOf ((runTraces { initial_sync_done := true, synced_clusters := {"c2"} }
        [(demoEnv, SyncEvent.clusterBecameReady clusterC2),
         (demoEnv, SyncEvent.clusterBecameNotReady clusterC2.name_any),
         (demoEnv, SyncEvent.clusterBecameReady clusterC2)]).2.flatten)
      = ([secretS1, secretS2].map fun s => (s, clusterC2))
    ∧ (runTraces { initial_sync_done := true, synced_clusters := {"c2"} }
        [(demoEnv, SyncEvent.clusterBecameReady clusterC2),
         (demoEnv, SyncEvent.clusterBecameNotReady clusterC2.name_any),
         (demoEnv, SyncEvent.clusterBecameReady clusterC2)]).1
      = { initial_sync_done := true, synced_clusters := {"c2"} }
    ∧ (∀ st' n, applyTrace st' (handle_cluster_not_ready n)
        = { st' with synced_clusters := st'.synced_clusters.erase n })
    ∧ (∀ st' n, applyTrace (applyTrace st' (handle_cluster_not_ready n))
          (handle_cluster_not_ready n)
        = applyTrace st' (handle_cluster_not_ready n)) :=
  cluster_flap_single_refanout { initial_sync_done := true, synced_clusters := {"c2"} }
    clusterC2 demoEnv demoEnv demoEnv [secretS1, secretS2] (by decide) rfl

/-- While the initial-sync flag is false, `handle_secret_changed` drops the
event. -/
lemma handle_secret_changed_of_flag_false (env : Env) (st : SyncState) (s : Secret)
    (h : st.initial_sync_done = false) : handle_secret_changed env st s = [] := by
  unfold handle_secret_changed
  rw [h]
  rfl

/-- No event handler ever emits the set-initial-sync-flag action: only the
startup bulk sync sets it. -/
lemma setInitialSyncDone_not_in_handle_event (env : Env) (st : SyncState) (ev : SyncEvent) :
    Action.setInitialSyncDone ∉ handle_event env st ev := by
  cases ev with
  | secretChanged s =>
    show Action.setInitialSyncDone ∉ handle_secret_changed env st s
    unfold handle_secret_changed
    cases hf : st.initial_sync_done with
    | false => simp
    | true =>
      cases hcl : get_ready_clusters env with
      | error e => simp
      | ok cs => simp [List.mem_map]
  | clusterBecameReady c =>
    show Action.setInitialSyncDone ∉ handle_cluster_ready env st c
    unfold handle_cluster_ready
    by_cases hmem : c.name_any ∈ st.synced_clusters
    · simp [hmem]
    · rw [if_neg hmem]
      cases hss : get_enabled_secrets env with
      | error e => simp
      | ok ss => simp [List.mem_append, List.mem_map]
  | clusterBecameNotReady n =>
    show Action.setInitialSyncDone ∉ handle_cluster_not_ready n
    simp [handle_cluster_not_ready]

/-- A trace without the set-flag action preserves the flag. -/
lemma flag_preserved_of_no_setDone (tr : List Action) :
    ∀ st : SyncState, Action.setInitialSyncDone ∉ tr →
      (applyTrace st tr).initial_sync_done = st.initial_sync_done := by
  induction tr with
  | nil => intro st h; rfl
  | cons hd tl ih =>
    intro st h
    rw [applyTrace_cons, ih (applyAction st hd) fun hm => h (List.mem_cons_of_mem _ hm)]
    cases hd with
    | attempt s c => rfl
    | insertSynced n => rfl
    | removeSynced n => rfl
    | setInitialSyncDone => exact absurd (List.mem_cons_self _ _) h

/-- Every event handler preserves the initial-sync flag. -/
lemma handle_event_preserves_flag (env : Env) (st : SyncState) (ev : SyncEvent) :
    (applyTrace st (handle_event env st ev)).initial_sync_done = st.initial_sync_done :=
  flag_preserved_of_no_setDone _ st (setInitialSyncDone_not_in_handle_event env st ev)

/-- Unfolding one step of the event loop. -/
lemma runTraces_cons (st : SyncState) (env : Env) (ev : SyncEvent)
    (tl : List (Env × SyncEvent)) :
    runTraces st ((env, ev) :: tl)
      = ((runTraces (applyTrace st (handle_event env st ev)) tl).1,
         handle_event env st ev
           :: (runTraces (applyTrace st (handle_event env st ev)) tl).2) := rfl

/-- With the flag false at entry, the event loop keeps it false and every
`SecretChanged` event yields the empty trace. -/
lemma runTraces_flag_false (evs : List (Env × SyncEvent)) :
    ∀ st : SyncState, st.initial_sync_done = false →
      (runTraces st evs).1.initial_sync_done = false
      ∧ (∀ (i : Nat) (env : Env) (s : Secret),
          evs[i]? = some (env, SyncEvent.secretChanged s) →
          (runTraces st evs).2[i]? = some ([] : List Action)) := by
  induction evs with
  | nil =>
    intro st h
    exact ⟨h, by intro i env s hi; simp at hi⟩
  | cons hd tl ih =>
    intro st h
    obtain ⟨env, ev⟩ := hd
    have hflag2 : (applyTrace st (handle_event env st ev)).initial_sync_done = false := by
      rw [handle_event_preserves_flag]
      exact h
    obtain ⟨ih1, ih2⟩ := ih (applyTrace st (handle_event env st ev)) hflag2
    refine ⟨?_, ?_⟩
    · rw [runTraces_cons]
      exact ih1
    · intro i env' s hi
      cases i with
      | zero =>
        rw [List.getElem?_cons_zero] at hi
        have hev : ev = SyncEvent.secretChanged s :=
          congrArg Prod.snd (Option.some.inj hi)
        subst hev
        rw [runTraces_cons, List.getElem?_cons_zero]
        exact congrArg some (handle_secret_changed_of_flag_false env st s h)
      | succ i =>
        rw [runTraces_cons, List.getElem?_cons_succ]
        exact ih2 i env' s (by simpa using hi)

/-- C10: the initial-sync flag is set only by the completion of the startup
bulk sync — no event handler emits the flag action — and when either
startup listing fails the coordinator returns early without setting it, so
for the entire remainder of the run every `SecretChanged` event is dropped
with zero distribution attempts. -/
theorem initial_sync_failure_drops_forever (env0 : Env) (evs : List (Env × SyncEvent))
    (h : (∃ e, get_ready_clusters env0 = Except.error e)
      ∨ (∃ e, get_enabled_secrets env0 = Except.error e)) :
    initial_sync env0 = []
    ∧ (sync_manager_run env0 evs).1.initial_sync_done = false
    ∧ (∀ (i : Nat) (env : Env) (s : Secret),
        evs[i]? = some (env, SyncEvent.secretChanged s) →
        (sync_manager_run env0 evs).2[i + 1]? = some ([] : List Action))
    ∧ (∀ (env : Env) (st : SyncState) (ev : SyncEvent),
        Action.setInitialSyncDone ∉ handle_event env st ev) := by
  have htr0 : initial_sync env0 = [] := by
    unfold initial_sync
    rcases h with ⟨e, he⟩ | ⟨e, he⟩
    · rw [he]
    · cases hcl : get_ready_clusters env0 with
      | error e2 => rfl
      | ok cs => rw [he]
  have hrun : sync_manager_run env0 evs
      = ((runTraces initState evs).1, [] :: (runTraces initState evs).2) := by
    unfold sync_manager_run
    rw [htr0]
    rfl
  obtain ⟨h1, h2⟩ := runTraces_flag_false evs initState rfl
  refine ⟨htr0, ?_, ?_, setInitialSyncDone_not_in_handle_event⟩
  · rw [hrun]
    exact h1
  · intro i env s hi
    rw [hrun, List.getElem?_cons_succ]
    exact h2 i env s hi

/-- Witness for C10: a failed startup cluster listing, followed by a
`SecretChanged` event, which is dropped. -/
theorem initial_sync_failure_drops_forever_witness :
    initial_sync failingEnv = []
    ∧ (sync_manager_run failingEnv
        [(demoEnv, SyncEvent.secretChanged secretS1)]).1.initial_sync_done = false
    ∧ (∀ (i : Nat) (env : Env) (s : Secret),
        [(demoEnv, SyncEvent.secretChanged secretS1)][i]?
            = some (env, SyncEvent.secretChanged s) →
        (sync_manager_run failingEnv
          [(demoEnv, SyncEvent.secretChanged secretS1)]).2[i + 1]?
          = some ([] : List Action))
    ∧ (∀ (env : Env) (st : SyncState) (ev : SyncEvent),
        Action.setInitialSyncDone ∉ handle_event env st ev) :=
  initial_sync_failure_drops_forever failingEnv
    [(demoEnv, SyncEvent.secretChanged secretS1)] (Or.inl ⟨"boom", rfl⟩)

/-- Lemma: `handle_event` dispatch on a secret event. -/
lemma handle_event_secretChanged (env : Env) (st : SyncState) (s : Secret) :
    handle_event env st (SyncEvent.secretChanged s) = handle_secret_changed env st s := rfl

/-- Lemma: `handle_event` dispatch on a cluster-ready event. -/
lemma handle_event_clusterReady (env : Env) (st : SyncState) (c : Cluster) :
    handle_event env st (SyncEvent.clusterBecameReady c) = handle_cluster_ready env st c := rfl

/-- Lemma: `handle_event` dispatch on a cluster-not-ready event. -/
lemma handle_event_clusterNotReady (env : Env) (st : SyncState) (n : String) :
    handle_event env st (SyncEvent.clusterBecameNotReady n)
      = handle_cluster_not_ready n := rfl

/-- Every secret in a successful `get_enabled_secrets` listing is
enabled. -/
lemma mem_get_enabled_secrets (env : Env) (ss : List Secret)
    (h : get_enabled_secrets env = Except.ok ss) :
    ∀ s ∈ ss, is_secret_enabled s = true := by
  unfold get_enabled_secrets at h
  cases henv : env.secretList with
  | error e =>
    rw [henv] at h
    exact absurd h (by simp)
  | ok items =>
    rw [henv] at h
    have hss : items.filter is_secret_enabled = ss := Except.ok.inj h
    intro s hs
    rw [← hss] at hs
    exact (List.mem_filter.mp hs).2

/-- Every distribution attempt any handler records carries an enabled
secret, provided any `SecretChanged` payload was enabled. -/
lemma attempts_enabled_handle_event (env : Env) (st : SyncState) (ev : SyncEvent)
    (hev : ∀ s', ev = SyncEvent.secretChanged s' → is_secret_enabled s' = true) :
    ∀ pr ∈ attemptsOf (handle_event env st ev), is_secret_enabled pr.1 = true := by
  intro pr hpr
  rw [mem_attemptsOf] at hpr
  cases ev with
  | secretChanged s' =>
    rw [handle_event_secretChanged] at hpr
    cases hf : st.initial_sync_done with
    | false =>
      rw [handle_secret_changed_of_flag_false env st s' hf] at hpr
      simp at hpr
    | true =>
      cases hcl : get_ready_clusters env with
      | error e =>
        have htr : handle_secret_changed env st s' = [] := by
          unfold handle_secret_changed
          rw [hf, hcl]
          rfl
        rw [htr] at hpr
        simp at hpr
      | ok cs =>
        have htr : handle_secret_changed env st s'
            = cs.map fun c => Action.attempt s' c := by
          unfold handle_secret_changed
          rw [hf, hcl]
          rfl
        rw [htr] at hpr
        obtain ⟨c, _, heq⟩ := List.mem_map.mp hpr
        have hs1 : s' = pr.1 := by injection heq
        rw [← hs1]
        exact hev s' rfl
  | clusterBecameReady c =>
    rw [handle_event_clusterReady] at hpr
    by_cases hmem : c.name_any ∈ st.synced_clusters
    · have htr : handle_cluster_ready env st c = [] := by
        unfold handle_cluster_ready
        rw [if_pos hmem]
      rw [htr] at hpr
      simp at hpr
    · cases hss : get_enabled_secrets env with
      | error e =>
        have htr : handle_cluster_ready env st c = [] := by
          unfold handle_cluster_ready
          rw [if_neg hmem, hss]
        rw [htr] at hpr
        simp at hpr
      | ok ss =>
        have htr : handle_cluster_ready env st c
            = (ss.map fun s => Action.attempt s c)
              ++ [Action.insertSynced c.name_any] := by
          unfold handle_cluster_ready
          rw [if_neg hmem, hss]
        rw [htr] at hpr
        rcases List.mem_append.mp hpr with h1 | h2
        · obtain ⟨s, hsmem, heq⟩ := List.mem_map.mp h1
          have hs1 : s = pr.1 := by injection heq
          rw [← hs1]
          exact mem_get_enabled_secrets env ss hss s hsmem
        · simp at h2
  | clusterBecameNotReady n =>
    rw [handle_event_clusterNotReady] at hpr
    simp [handle_cluster_not_ready] at hpr

/-- Every attempt of the startup bulk sync carries an enabled secret. -/
lemma attempts_enabled_initial_sync (env0 : Env) :
    ∀ pr ∈ attemptsOf (initial_sync env0), is_secret_enabled pr.1 = true := by
  intro pr hpr
  rw [mem_attemptsOf] at hpr
  unfold initial_sync at hpr
  cases hcl : get_ready_clusters env0 with
  | error e =>
    rw [hcl] at hpr
    simp at hpr
  | ok cs =>
    rw [hcl] at hpr
    cases hss : get_enabled_secrets env0 with
    | error e =>
      rw [hss] at hpr
      simp at hpr
    | ok ss =>
      rw [hss] at hpr
      rcases List.mem_append.mp hpr with h1 | h2
      · rcases List.mem_append.mp h1 with h3 | h4
        · obtain ⟨s, hsmem, ha⟩ := List.mem_flatMap.mp h3
          obtain ⟨c, _, heq⟩ := List.mem_map.mp ha
          have hs1 : s = pr.1 := by injection heq
          rw [← hs1]
          exact mem_get_enabled_secrets env0 ss hss s hsmem
        · exact absurd h4 (by simp [List.mem_map])
      · simp at h2

/-- Every attempt of the event loop carries an enabled secret, provided all
`SecretChanged` payloads were enabled. -/
lemma attempts_enabled_runTraces (evs : List (Env × SyncEvent)) :
    ∀ st : SyncState,
      (∀ p ∈ evs, ∀ s', p.2 = SyncEvent.secretChanged s' → is_secret_enabled s' = true) →
      ∀ pr ∈ attemptsOf ((runTraces st evs).2.flatten), is_secret_enabled pr.1 = true := by
  induction evs with
  | nil =>
    intro st _ pr hpr
    simp [runTraces, attemptsOf] at hpr
  | cons hd tl ih =>
    intro st hyp pr hpr
    obtain ⟨env, ev⟩ := hd
    rw [runTraces_cons] at hpr
    rw [List.flatten_cons, attemptsOf_append] at hpr
    rcases List.mem_append.mp hpr with h1 | h2
    · exact attempts_enabled_handle_event env st ev
        (fun s' hs' => hyp (env, ev) (List.mem_cons_self ..) s' hs') pr h1
    · exact ih (applyTrace st (handle_event env st ev))
        (fun p hp => hyp p (List.mem_cons_of_mem _ hp)) pr h2

/-- The traces of a full manager run are the initial sync's followed by the
event loop's. -/
lemma sync_manager_run_snd (env0 : Env) (evs : List (Env × SyncEvent)) :
    (sync_manager_run env0 evs).2
      = initial_sync env0
        :: (runTraces (applyTrace initState (initial_sync env0)) evs).2 := rfl

/-- C5: a secret whose annotation map lacks the enabled key or maps it to
anything but `"true"` is never distributed: the eligibility filter rejects
it, the secret reconciler never forwards it, bulk listings exclude it, and
no run of the coordinator (whose `SecretChanged` payloads all come from
the reconciler, hence are enabled) records an attempt for it. -/
theorem disabled_secret_never_distributed (s : Secret)
    (h : mapGet s.metadata.annotations ENABLED_KEY ≠ some "true") :
    is_secret_enabled s = false
    ∧ secret_reconcile s = none
    ∧ (∀ (env : Env) (ss : List Secret), get_enabled_secrets env = Except.ok ss → s ∉ ss)
    ∧ (∀ (env0 : Env) (evs : List (Env × SyncEvent)),
        (∀ p ∈ evs, ∀ s', p.2 = SyncEvent.secretChanged s' → is_secret_enabled s' = true) →
        ∀ pr ∈ attemptsOf ((sync_manager_run env0 evs).2.flatten), pr.1 ≠ s) := by
  have hfalse : is_secret_enabled s = false := by
    unfold is_secret_enabled
    cases hm : mapGet s.metadata.annotations ENABLED_KEY with
    | none => rfl
    | some v =>
      cases hv : (v == "true") with
      | false => exact hv
      | true =>
        have hveq : v = "true" := eq_of_beq hv
        exact absurd (hm.trans (by rw [hveq])) h
  have hne : ∀ x : Secret, is_secret_enabled x = true → x ≠ s := by
    intro x hx heq
    rw [heq, hfalse] at hx
    exact Bool.false_ne_true hx
  refine ⟨hfalse, ?_, ?_, ?_⟩
  · have hre : secret_reconcile s
        = if !(is_secret_enabled s) then none else some (SyncEvent.secretChanged s) := rfl
    rw [hre, hfalse]
    rfl
  · intro env ss hss hmem
    exact hne s (mem_get_enabled_secrets env ss hss s hmem) rfl
  · intro env0 evs hyp pr hpr
    rw [sync_manager_run_snd, List.flatten_cons, attemptsOf_append] at hpr
    rcases List.mem_append.mp hpr with h1 | h2
    · exact hne pr.1 (attempts_enabled_initial_sync env0 pr h1)
    · exact hne pr.1 (attempts_enabled_runTraces evs
        (applyTrace initState (initial_sync env0)) hyp pr h2)

/-- Witness for C5: the plain secret (no enabled annotation) is rejected by
the filter, not forwarded, and absent from every attempt. -/
theorem disabled_secret_never_distributed_witness :
    is_secret_enabled secretPlain = false
    ∧ secret_reconcile secretPlain = none
    ∧ (∀ (env : Env) (ss : List Secret),
        get_enabled_secrets env = Except.ok ss → secretPlain ∉ ss)
    ∧ (∀ (env0 : Env) (evs : List (Env × SyncEvent)),
        (∀ p ∈ evs, ∀ s', p.2 = SyncEvent.secretChanged s' → is_secret_enabled s' = true) →
        ∀ pr ∈ attemptsOf ((sync_manager_run env0 evs).2.flatten), pr.1 ≠ secretPlain) :=
  disabled_secret_never_distributed secretPlain (by decide)

/-- The split traversal always produces at least one fragment. -/
lemma splitAux_ne_nil (pat : List Char) :
    ∀ (n : Nat) (s acc : List Char), splitAux pat n s acc ≠ [] := by
  intro n
  induction n with
  | zero =>
    intro s acc
    cases s <;> simp [splitAux]
  | succ n ih =>
    intro s acc
    cases s with
    | nil => simp [splitAux]
    | cons c rest =>
      simp only [splitAux]
      split
      · simp
      · exact ih rest (c :: acc)

/-- Replacing is rejoining the split fragments with the replacement. -/
lemma charsJoin_splitAux (pat rep : List Char) :
    ∀ (n : Nat) (s acc : List Char),
      charsJoin (splitAux pat n s acc) rep = acc.reverse ++ replaceAux pat rep n s := by
  intro n
  induction n with
  | zero =>
    intro s acc
    cases s with
    | nil => simp [splitAux, replaceAux, charsJoin]
    | cons c rest => simp [splitAux, replaceAux, charsJoin]
  | succ n ih =>
    intro s acc
    cases s with
    | nil => simp [splitAux, replaceAux, charsJoin]
    | cons c rest =>
      simp only [splitAux, replaceAux]
      by_cases hp : pat.isPrefixOf (c :: rest)
      · rw [if_pos hp, if_pos hp]
        obtain ⟨y, ys, hys⟩ : ∃ y ys,
            splitAux pat n ((c :: rest).drop pat.length) [] = y :: ys := by
          cases hsp : splitAux pat n ((c :: rest).drop pat.length) [] with
          | nil => exact absurd hsp (splitAux_ne_nil pat n _ [])
          | cons y ys => exact ⟨y, ys, rfl⟩
        rw [hys]
        show acc.reverse ++ rep ++ charsJoin (y :: ys) rep
          = acc.reverse ++ (rep ++ replaceAux pat rep n ((c :: rest).drop pat.length))
        rw [← hys, ih _ []]
        simp [List.append_assoc]
      · rw [if_neg hp, if_neg hp]
        rw [ih rest (c :: acc)]
        simp

/-- String-level form of `charsJoin_splitAux`. -/
lemma joinWith_map_mk (rep : String) : ∀ L : List (List Char),
    joinWith (L.map fun cs => (⟨cs⟩ : String)) rep = ⟨charsJoin L rep.data⟩ := by
  obtain ⟨d⟩ := rep
  intro L
  induction L with
  | nil => rfl
  | cons x xs ih =>
    cases xs with
    | nil => rfl
    | cons y ys =>
      show (⟨x⟩ : String) ++ ⟨d⟩ ++ joinWith ((y :: ys).map fun cs => (⟨cs⟩ : String)) ⟨d⟩
        = (⟨x ++ d ++ charsJoin (y :: ys) d⟩ : String)
      rw [ih]
      show (⟨x ++ d ++ charsJoin (y :: ys) d⟩ : String) = _
      rfl

/-- Rust `replace` equals rejoining the Rust `split` fragments. -/
lemma rust_replace_eq_joinWith_split (s pat rep : String) :
    rust_replace s pat rep = joinWith (rust_split s pat) rep := by
  unfold rust_replace rust_split
  rw [joinWith_map_mk]
  exact congrArg String.mk (by rw [charsJoin_splitAux]; simp)

/-- C9 counterexample: with the ambient URL `https://localhost/k8s/clusters/local`
(host `localhost`, trailing cluster segment `local`) and internal name
`c-123`, the code rewrites the host too (`https://c-123host/...`), so the
rest of the URL is not left unchanged, and the result differs both from the
claim's host-substitution reading and from a substitution of only the
trailing segment. -/
theorem testing_cluster_url_counterexample :
    testing_cluster_url "https://localhost/k8s/clusters/local" clusterC2
      = "https://c-123host/k8s/clusters/c-123"
    ∧ claimed_testing_cluster_url "https://localhost/k8s/clusters/local" clusterC2
      = "https://localhost/k8s/clusters/local"
    ∧ testing_cluster_url "https://localhost/k8s/clusters/local" clusterC2
      ≠ claimed_testing_cluster_url "https://localhost/k8s/clusters/local" clusterC2
    ∧ testing_cluster_url "https://localhost/k8s/clusters/local" clusterC2
      ≠ "https://localhost/k8s/clusters/c-123" :=
  ⟨by decide, by decide, by decide, by decide⟩

/-- C9 amended: in testing mode, when the ambient URL's final
`/`-separated segment is exactly `local`, every occurrence of the substring
`local` in the URL is replaced by the cluster's internal identifier (the
status clusterName, falling back to the cluster's own name) — in
particular, when `local` occurs exactly once, as that final segment, only
that segment is rewritten; otherwise the URL is unchanged. -/
theorem testing_cluster_url_amended (cluster : Cluster) :
    (∀ url p, rust_split url "local" = [p, ""] → last_url_segment url = "local" →
        testing_cluster_url url cluster = p ++ cluster.internal_name)
    ∧ (∀ url, last_url_segment url ≠ "local" → testing_cluster_url url cluster = url) := by
  constructor
  · intro url p hsplit hlast
    unfold testing_cluster_url
    rw [if_pos (beq_iff_eq.mpr hlast)]
    rw [rust_replace_eq_joinWith_split, hsplit]
    show p ++ cluster.internal_name ++ "" = p ++ cluster.internal_name
    rw [String.append_empty]
  · intro url hlast
    unfold testing_cluster_url
    rw [if_neg (by simpa using hlast)]

/-- Witness for the amended C9: a URL containing `local` exactly once, as
the trailing segment, has only that segment rewritten; a URL whose last
segment is not `local` is untouched. -/
theorem testing_cluster_url_amended_witness :
    testing_cluster_url "https://rancher.example/k8s/clusters/local" clusterC2
      = "https://rancher.example/k8s/clusters/" ++ clusterC2.internal_name
    ∧ testing_cluster_url "https://rancher.example/" clusterC2
      = "https://rancher.example/" :=
  ⟨(testing_cluster_url_amended clusterC2).1 "https://rancher.example/k8s/clusters/local"
      "https://rancher.example/k8s/clusters/" (by decide) (by decide),
   (testing_cluster_url_amended clusterC2).2 "https://rancher.example/" (by decide)⟩

end Outrider
